import Mathlib

/-!
Verification of the 8-bitbox retro music player against its specification.

The development shallowly embeds the relevant JavaScript source:
  - frontend/src/hooks/useSPCPlayer.js   (SPC transport, ID666 parser, timers,
    archive loading, frequency downsampling, engine load with global
    snapshot/restore)
  - frontend/src/hooks/useM4APlayer.js   (synthetic frequency visualisation,
    next/prev wrap)
  - the offline manifest pipeline (unnamed/part_000: parseVGMTitle,
    parseSPCID666, processZipFile / processSPCZipFile entry loops)

Byte buffers are `List Nat` (each entry a byte value 0..255); JS strings are
`List Nat` of UTF-16 code units.  Machine arithmetic that matters (little
endian 16/32-bit reads) is spelled out with explicit `% 256` style byte
composition.  Fallible JS functions that return `null` are embedded as
`Option`.
-/

namespace Bitbox

/-- ASCII lowercase of a code unit, as used by `String.prototype.toLowerCase`
on the ASCII range (non-ASCII code units are irrelevant to the extension
checks modelled here, since none of them lowercases into `.`, `s`, `p`, `c`,
`v`, `g`, `m`, `z`, `j`, `n` or `e`). -/
def jsToLower (c : Nat) : Nat :=
  if 65 ≤ c ∧ c ≤ 90 then c + 32 else c

/-- Whitespace recognised by `String.prototype.trim` / `parseInt` on the
byte range 0..255: TAB..CR, SPACE and NBSP. -/
def isJsSpace (c : Nat) : Bool :=
  (9 ≤ c && c ≤ 13) || c == 32 || c == 160

/-- ASCII decimal digit test. -/
def isDigit (c : Nat) : Bool :=
  48 ≤ c && c ≤ 57

/-- Model of `bytes.slice(0, end)` where `end` is the index of the first 0
byte (`bytes.indexOf(0)`), or the whole list when no 0 byte occurs.  Both SPC
parsers use exactly this truncation. -/
def takeUntilZero : List Nat → List Nat
  | [] => []
  | c :: cs => if c = 0 then [] else c :: takeUntilZero cs

/-- Model of `String.prototype.trim` over byte strings. -/
def jsTrim (s : List Nat) : List Nat :=
  ((s.dropWhile isJsSpace).reverse.dropWhile isJsSpace).reverse

/-- Value of a list of ASCII digits, most significant first, as folded up by
`parseInt`. -/
def digitsToNat (ds : List Nat) : Nat :=
  ds.foldl (fun a c => a * 10 + (c - 48)) 0

/-- Model of `parseInt(str, 10)`: skip leading whitespace, accept one
optional sign, then consume the maximal run of decimal digits; `none` stands
for `NaN` (no digit found). -/
def jsParseInt (s : List Nat) : Option Int :=
  let t := s.dropWhile isJsSpace
  match t with
  | 45 :: rest =>
      let ds := rest.takeWhile isDigit
      if ds = [] then none else some (-(digitsToNat ds : Int))
  | 43 :: rest =>
      let ds := rest.takeWhile isDigit
      if ds = [] then none else some (digitsToNat ds : Int)
  | _ =>
      let ds := t.takeWhile isDigit
      if ds = [] then none else some (digitsToNat ds : Int)

/-- Model of `parseInt(str, 10) || 0`: `NaN` and `0` both collapse to `0`. -/
def jsParseIntOr0 (s : List Nat) : Int :=
  (jsParseInt s).getD 0

/-- The `readString(offset, len)` helper shared (verbatim) by both SPC
parsers: slice `len` bytes at `offset` (clamped at the end of the buffer),
truncate at the first 0 byte, decode as one-byte code units and trim. -/
def spcReadString (buffer : List Nat) (offset len : Nat) : List Nat :=
  jsTrim (takeUntilZero ((buffer.drop offset).take len))

/-- Metadata record returned by both SPC ID666 parsers. -/
structure SPCInfo where
  title : List Nat
  game : List Nat
  artist : List Nat
  duration : Int
  fade : Int
  deriving Repr, DecidableEq

/-- Shared field extraction of both ID666 parsers: three fixed-offset text
fields, a 3-byte ASCII duration at 0xA9 and a 5-byte ASCII fade at 0xAC,
non-numeric content collapsing to 0. -/
def spcReadFields (buffer : List Nat) : SPCInfo :=
  { title := spcReadString buffer 0x2E 32
    game := spcReadString buffer 0x4E 32
    artist := spcReadString buffer 0xB1 32
    duration := jsParseIntOr0 (spcReadString buffer 0xA9 3)
    fade := jsParseIntOr0 (spcReadString buffer 0xAC 5) }

/-- Embedding of `parseSPCID666` from `useSPCPlayer.js` (frontend).  The
function body performs no signature validation and none of its operations can
throw, so the `catch` branch returning `null` is unreachable: the parser
yields a metadata record for every input buffer. -/
def parseSPCID666 (buffer : List Nat) : Option SPCInfo :=
  some (spcReadFields buffer)

/-- The 11-byte ASCII signature prefix "SNES-SPC700" checked by the pipeline
parser via `String.fromCharCode(...buffer.slice(0, 33)).startsWith(...)`. -/
def spcSignature : List Nat :=
  [83, 78, 69, 83, 45, 83, 80, 67, 55, 48, 48]

/-- The pipeline parser's magic check: the decoded prefix of the buffer
starts with "SNES-SPC700" (equivalently, the first 11 bytes are exactly the
signature, which in particular forces the buffer to hold at least 11
bytes). -/
def spcMagicOk (buffer : List Nat) : Bool :=
  buffer.take 11 == spcSignature

/-- Embedding of `parseSPCID666` from the offline pipeline
(`unnamed/part_000`): validate the ASCII signature prefix first, return
`null` when it fails, otherwise read the same ID666 fields. -/
def parseSPCID666Pipeline (buffer : List Nat) : Option SPCInfo :=
  if spcMagicOk buffer then some (spcReadFields buffer) else none

/-! ### Track catalogue building (`loadZip` in useSPCPlayer.js) -/

/-- Model of `Math.ceil(fade / 1000)` over integers: the ceiling of the
rational `a / b`, via floor division of the negation. -/
def jsCeilDiv (a : Int) (b : Nat) : Int :=
  -((-a).fdiv (b : Int))

/-- The playback fallback `spcInfo?.duration || 180`: a parsed duration of 0
(zero or unparseable field) is replaced by 180 seconds. -/
def effectiveDuration (d : Int) : Int :=
  if d = 0 then 180 else d

/-- The playback fallback `spcInfo?.fade || 10000`: a parsed fade of 0 is
replaced by 10000 milliseconds. -/
def effectiveFade (f : Int) : Int :=
  if f = 0 then 10000 else f

/-- The catalogue length `duration + Math.ceil(fade / 1000)` computed by
`loadZip` from the already-defaulted duration and fade. -/
def trackLengthSeconds (duration fade : Int) : Int :=
  duration + jsCeilDiv fade 1000

/-- Suffix test `lowerPath.endsWith(".spc")`. -/
def isSpcPath (p : List Nat) : Bool :=
  [46, 115, 112, 99].isSuffixOf (p.map jsToLower)

/-- Model of the regex replaces building the filename fallback
`originalPath.replace(/\.spc$/i, "")`: drop a case-insensitive ".spc"
suffix when present. -/
def stripSpcSuffix (p : List Nat) : List Nat :=
  if isSpcPath p then p.take (p.length - 4) else p

/-- Model of `.replace(/^\d+\s*/, "")`: when the name starts with a digit,
drop the leading run of digits and any following whitespace. -/
def stripLeadingDigits (p : List Nat) : List Nat :=
  match p with
  | [] => []
  | c :: _ =>
      if isDigit c then (p.dropWhile isDigit).dropWhile isJsSpace else p

/-- One entry of `mz.list()` as consumed by `loadZip`: a file path and the
extracted payload bytes (`mz.extract` is modelled as the stored payload). -/
structure MzEntry where
  filepath : List Nat
  data : List Nat
  deriving Repr, DecidableEq

/-- The track record pushed by `loadZip` for one `.spc` entry (the
`lengthFormatted` field, a decimal mm:ss rendering of `length`, is omitted
as pure formatting). -/
structure SPCTrack where
  path : List Nat
  name : List Nat
  length : Int
  duration : Int
  fade : Int
  title : List Nat
  deriving Repr, DecidableEq

/-- The "|||" separator of the joined `title` field. -/
def tripleBar : List Nat := [124, 124, 124]

/-- Track construction for one `.spc` archive entry inside `loadZip`. -/
def mkSPCTrack (e : MzEntry) : SPCTrack :=
  let info := spcReadFields e.data
  let duration := effectiveDuration info.duration
  let fade := effectiveFade info.fade
  { path := e.filepath
    name := if info.title ≠ [] then info.title
            else stripLeadingDigits (stripSpcSuffix e.filepath)
    length := trackLengthSeconds duration fade
    duration := duration
    fade := fade
    title := info.title ++ tripleBar ++ info.game ++ tripleBar ++ info.artist }

/-- The entry loop of `loadZip`: walk the archive listing in stored order and
push one track per entry whose lowercased path ends in ".spc". -/
def loadZipTracks : List MzEntry → List SPCTrack
  | [] => []
  | e :: es =>
      if isSpcPath e.filepath then mkSPCTrack e :: loadZipTracks es
      else loadZipTracks es

/-! ### Pipeline archive enumeration (`processZipFile`, `processSPCZipFile`
in unnamed/part_000) -/

/-- One JSZip entry: path, directory flag, stored payload. -/
structure ZipEntry where
  filepath : List Nat
  dir : Bool
  data : List Nat
  deriving Repr, DecidableEq

/-- Suffix test against a fixed lowercase extension. -/
def hasExt (ext : List Nat) (p : List Nat) : Bool :=
  ext.isSuffixOf (p.map jsToLower)

/-- The image-entry test of both pipeline loops:
`lowerName.endsWith(".png") || .endsWith(".jpg") || .endsWith(".jpeg")`. -/
def isImagePath (p : List Nat) : Bool :=
  hasExt [46, 112, 110, 103] p || hasExt [46, 106, 112, 103] p ||
    hasExt [46, 106, 112, 101, 103] p

/-- The audio-entry test of the VGM pipeline loop:
`lowerName.endsWith(".vgm") || lowerName.endsWith(".vgz")`. -/
def isVgmAudioPath (p : List Nat) : Bool :=
  hasExt [46, 118, 103, 109] p || hasExt [46, 118, 103, 122] p

/-- The compression sniff of the VGM loop: a `.vgz` extension or a gzip
signature `0x1f 0x8b` in the first two payload bytes. -/
def isVgz (e : ZipEntry) : Bool :=
  hasExt [46, 118, 103, 122] e.filepath ||
    (e.data.getD 0 0 == 0x1f && e.data.getD 1 0 == 0x8b)

/-- The cover-image accumulator of both pipeline loops.  Every non-directory
image entry overwrites `coverImageData` / `coverImageExt`, so the function
folds left over the enumeration keeping the most recent image payload. -/
def coverFold (acc : Option (List Nat)) : List ZipEntry → Option (List Nat)
  | [] => acc
  | e :: es =>
      coverFold
        (if !e.dir && isImagePath e.filepath then some e.data else acc) es

/-- The cover image candidate selected by a whole pipeline enumeration. -/
def coverCandidate (entries : List ZipEntry) : Option (List Nat) :=
  coverFold none entries

/-- The audio part of the VGM pipeline loop, parameterised by the external
`pako.inflate` (decompression failure = `none` makes the loop skip the single
entry and continue).  Directory entries are skipped up front; each surviving
`.vgm`/`.vgz` entry contributes its original filename and decompressed
payload, in enumeration order.  (Output-name sanitisation, dedupe numbering
and the m4a conversion do not affect which entries yield tracks and are not
modelled.) -/
def processZipAudio (inflate : List Nat → Option (List Nat)) :
    List ZipEntry → List (List Nat × List Nat)
  | [] => []
  | e :: es =>
      if e.dir then processZipAudio inflate es
      else if isVgmAudioPath e.filepath then
        match (if isVgz e then inflate e.data else some e.data) with
        | none => processZipAudio inflate es
        | some payload => (e.filepath, payload) :: processZipAudio inflate es
      else processZipAudio inflate es

/-- An entry is counted as a VGM audio entry: not a directory and carrying a
`.vgm`/`.vgz` extension. -/
def isVgmAudioEntry (e : ZipEntry) : Bool :=
  !e.dir && isVgmAudioPath e.filepath

/-- An entry is counted as an image entry: not a directory and carrying a
`.png`/`.jpg`/`.jpeg` extension. -/
def isImageEntry (e : ZipEntry) : Bool :=
  !e.dir && isImagePath e.filepath

/-! ### Transport: next/prev wrap (useSPCPlayer.js and useM4APlayer.js) -/

/-- `nextTrack`: `(currentTrackIndex + 1) % trackList.length`. -/
def nextTrackIndex (i len : Nat) : Nat :=
  (i + 1) % len

/-- `prevTrack`: `currentTrackIndex === 0 ? trackList.length - 1 :
currentTrackIndex - 1`. -/
def prevTrackIndex (i len : Nat) : Nat :=
  if i = 0 then len - 1 else i - 1

/-! ### Timer lifecycle of the SPC playback engine (useSPCPlayer.js)

The fade and auto-advance schedules are held in `fadeTimerRef` /
`endTimerRef`.  The model tags every scheduled timer with the play session
that created it and keeps the set of timers that are scheduled and not yet
cleared; `stop` cancels exactly the two timers currently referenced,
`pause` only flips `isPlayingRef`, and `play` calls `stop` only when
`isPlayingRef.current` is true before overwriting both refs with the new
session's timers. -/

/-- Observable timer state of the SPC player hook. -/
structure SPCPlayerState where
  isPlaying : Bool
  fadeRef : Option Nat
  endRef : Option Nat
  /-- Scheduled-and-uncancelled timers as (timer id, owning session). -/
  live : List (Nat × Nat)
  session : Nat
  nextId : Nat
  deriving Repr, DecidableEq

/-- Initial hook state: nothing scheduled, not playing. -/
def initialPlayerState : SPCPlayerState :=
  { isPlaying := false, fadeRef := none, endRef := none
    live := [], session := 0, nextId := 0 }

/-- `stop()`: `clearInterval(fadeTimerRef.current)` and
`clearTimeout(endTimerRef.current)` cancel exactly the two referenced
timers, both refs are nulled and `isPlayingRef` cleared. -/
def spcStop (s : SPCPlayerState) : SPCPlayerState :=
  { s with
    live := s.live.filter
      (fun t => !(s.fadeRef == some t.1 || s.endRef == some t.1))
    fadeRef := none
    endRef := none
    isPlaying := false }

/-- `pause()`: disconnects the audio node and clears `isPlayingRef`; the
fade and auto-advance timers are left untouched. -/
def spcPause (s : SPCPlayerState) : SPCPlayerState :=
  { s with isPlaying := false }

/-- `play(trackIndex)`: `if (isPlayingRef.current) stop()`, then a new
session schedules a fresh fade timer and auto-advance timer, overwriting
both refs. -/
def spcPlay (s : SPCPlayerState) : SPCPlayerState :=
  let s1 := if s.isPlaying then spcStop s else s
  let sess := s1.session + 1
  { isPlaying := true
    fadeRef := some s1.nextId
    endRef := some (s1.nextId + 1)
    live := s1.live ++ [(s1.nextId, sess), (s1.nextId + 1, sess)]
    session := sess
    nextId := s1.nextId + 2 }

/-- The auto-advance callback `if (isPlayingRef.current &&
nextTrackRef.current) nextTrackRef.current()`: a still-scheduled timer that
comes due advances the track exactly when the player is playing. -/
def endTimerAdvances (s : SPCPlayerState) (t : Nat × Nat) : Bool :=
  s.live.contains t && s.isPlaying

/-! ### Gain stages: user volume and fade-out (C2)

The fade envelope is taken from `play()` in useSPCPlayer.js: 20 discrete
steps, `gain.value = Math.max(0, 1 - step / fadeSteps)`. -/

/-- The number of discrete fade steps (`const fadeSteps = 20`). -/
def fadeSteps : ℕ := 20

/-- Fade gain factor after `step` fade interval ticks:
`Math.max(0, 1 - (step / fadeSteps))`. -/
def spcFadeGain (step : ℕ) : ℚ :=
  max 0 (1 - (step : ℚ) / (fadeSteps : ℚ))

/-- Modelled from the spec: the `setVolume(ratio)` implementation of the
transport hook is not among the sources (only its caller, the `App`
component wiring `onVolumeChange={player.setVolume}`, is).  Per the spec it
clamps the requested ratio to [0, 1]. -/
def setVolumeClamp (ratio : ℚ) : ℚ :=
  max 0 (min 1 ratio)

/-- Modelled from the spec: the user-volume gain stage is independent of the
fade-out gain, so the effective output gain while fading is their
product. -/
def effectiveOutputGain (ratio : ℚ) (fadeStep : ℕ) : ℚ :=
  setVolumeClamp ratio * spcFadeGain fadeStep

/-! ### Engine isolation: global snapshot and restore (C9)

The SPC engine load effect in useSPCPlayer.js saves `window.Module`,
`window.allocate` and `window.ALLOC_STACK`, clears `Module`, installs a
fresh config object, runs the spc_snes.js script (an arbitrary mutation of
the globals), captures the engine functions and then restores the saved
bindings — `Module` when the saved value was set, and `allocate` together
with `ALLOC_STACK` when the saved `allocate` was set.  Binding values are
opaque; `none` models an undefined global (JS objects and functions are
always truthy, so presence models truthiness). -/

/-- The shared global bindings the two engines collide on. -/
structure Globals where
  module : Option Nat
  allocate : Option Nat
  allocStack : Option Nat
  deriving Repr, DecidableEq

/-- The engine functions captured from the globals after the script ran. -/
structure SPCEngine where
  module : Option Nat
  allocate : Option Nat
  allocStack : Option Nat
  deriving Repr, DecidableEq

/-- Opaque stand-in for the fresh `{ memoryInitializerPrefixURL }` config
object installed before the script loads. -/
def spcModuleConfig : Nat := 1000000

/-- The SPC engine load sequence around an arbitrary script effect,
returning the globals after restore together with the captured engine. -/
def loadSPCEngine (scriptEffect : Globals → Globals) (g : Globals) :
    Globals × SPCEngine :=
  let saved := g
  let g1 : Globals := { g with module := none }
  let g2 : Globals := { g1 with module := some spcModuleConfig }
  let g3 := scriptEffect g2
  let engine : SPCEngine :=
    { module := g3.module, allocate := g3.allocate,
      allocStack := g3.allocStack }
  let g4 : Globals :=
    { g3 with module := if saved.module.isSome then saved.module
                        else g3.module }
  let g5 : Globals :=
    if saved.allocate.isSome then
      { g4 with allocate := saved.allocate, allocStack := saved.allocStack }
    else g4
  (g5, engine)

/-! ### Frequency snapshots (C10) -/

/-- Sum of up to `count` analyser bytes starting at `start`, with the
`if (idx < freqUint8.length)` bounds guard of the frontend loop. -/
def sumBin (data : List Nat) (start : Nat) : Nat → Nat
  | 0 => 0
  | count + 1 =>
      (if start < data.length then data.getD start 0 else 0) +
        sumBin data (start + 1) count

/-- Model of `Math.round(sum / binSize)` on nonnegative values: round half
up, computed as `⌊(2 sum + binSize) / (2 binSize)⌋`. -/
def jsRoundDiv (sum binSize : Nat) : Nat :=
  (2 * sum + binSize) / (2 * binSize)

/-- The 16-bin downsampling tick of the SPC player's frequency loop:
`binSize = Math.max(1, Math.floor(len / 16))` and bin `i` is the rounded
average of the `binSize` analyser bytes starting at `i * binSize`.  The loop
runs on every animation frame regardless of the playing state. -/
def spcFrequencyTick (data : List Nat) : List Nat :=
  let binSize := max 1 (data.length / 16)
  (List.range 16).map
    (fun i => jsRoundDiv (sumBin data (i * binSize) binSize) binSize)

/-- The SPC player's published snapshot as a function of the playing flag
and the analyser contents: the tick ignores the flag entirely. -/
def spcSnapshot (_isPlaying : Bool) (data : List Nat) : List Nat :=
  spcFrequencyTick data

/-- The per-bin smoothing step of the M4A player's synthetic visualiser:
`base = Math.max(0, 180 - i * 8)`, `target = base + rand * 80 - 40`, fast
attack `min(255, b + (target - b) * 0.4)` towards louder targets and slow
decay `max(0, b - (b - target) * 0.15)` otherwise. -/
def m4aBinStep (i : ℕ) (rand b : ℚ) : ℚ :=
  let base : ℚ := max 0 (180 - (i : ℚ) * 8)
  let target : ℚ := base + rand * 80 - 40
  if b < target then min 255 (b + (target - b) * (2 / 5))
  else max 0 (b - (b - target) * (3 / 20))

/-- Model of `Math.round` on a nonnegative rational: floor of `x + 1/2`. -/
def jsRoundQ (x : ℚ) : ℤ :=
  ⌊x + 1 / 2⌋

/-- The M4A player's published snapshot: the synthetic effect resets the
bins to `new Array(16).fill(0)` whenever `isPlaying` is false, and publishes
`next.map(v => Math.round(v))` of the smoothed bins while playing. -/
def m4aSnapshot (isPlaying : Bool) (rand bins : Fin 16 → ℚ) : Fin 16 → ℤ :=
  if isPlaying then fun i => jsRoundQ (m4aBinStep i (rand i) (bins i))
  else fun _ => 0

/-! ### VGM GD3 parser (`parseVGMTitle` in unnamed/part_000)

The GD3 string reader is the JS loop
`while (pos < buffer.length - 1) { char = view.getUint16(pos, true); pos +=
2; if (char === 0) break; str += ... }` repeated for up to 11 strings, each
outer iteration guarded by the same `pos < buffer.length - 1` bound.  The
reader is embedded with a fuel argument instantiated at `buffer.length`:
every iteration advances `pos` by 2 while the guard keeps `pos + 1 <
buffer.length`, so no run can take more than `buffer.length` iterations and
the fuel-exhaustion branch is unreachable. -/

/-- One null-terminated UTF-16LE string starting at `pos`: returns the code
units read and the position just past the terminator (or past the last
complete unit when the buffer ends first). -/
def readStrFuel : Nat → List Nat → Nat → List Nat × Nat
  | 0, _, pos => ([], pos)
  | fuel + 1, buf, pos =>
      if pos + 1 < buf.length then
        let c := buf.getD pos 0 + 256 * buf.getD (pos + 1) 0
        if c = 0 then ([], pos + 2)
        else
          let r := readStrFuel fuel buf (pos + 2)
          (c :: r.1, r.2)
      else ([], pos)

/-- The GD3 string reader with its fuel fixed at the buffer length. -/
def readStr (buf : List Nat) (pos : Nat) : List Nat × Nat :=
  readStrFuel buf.length buf pos

/-- Up to `n` consecutive null-terminated strings, each outer iteration
guarded by `pos < buffer.length - 1` exactly as in the JS `for` loop. -/
def readStrs (buf : List Nat) (pos : Nat) : Nat → List (List Nat)
  | 0 => []
  | n + 1 =>
      if pos + 1 < buf.length then
        let r := readStr buf pos
        r.1 :: readStrs buf r.2 n
      else []

/-- The GD3 metadata record: 11 fields in the documented order. -/
structure VGMInfo where
  trackNameEn : List Nat
  trackNameJp : List Nat
  gameNameEn : List Nat
  gameNameJp : List Nat
  systemNameEn : List Nat
  systemNameJp : List Nat
  authorNameEn : List Nat
  authorNameJp : List Nat
  releaseDate : List Nat
  vgmCreator : List Nat
  notes : List Nat
  deriving Repr, DecidableEq

/-- The little-endian 32-bit GD3 offset read at header position 0x14. -/
def gd3OffsetOf (buf : List Nat) : Nat :=
  buf.getD 0x14 0 + 256 * buf.getD 0x15 0 + 65536 * buf.getD 0x16 0 +
    16777216 * buf.getD 0x17 0

/-- The 4-byte magic "Vgm " at the start of a VGM buffer. -/
def vgmMagic : List Nat := [86, 103, 109, 32]

/-- The 4-byte magic "Gd3 " at the start of a GD3 block. -/
def gd3Magic : List Nat := [71, 100, 51, 32]

/-- Embedding of `parseVGMTitle`.  A `DataView` read past the end of the
buffer throws a `RangeError` that the surrounding `try` turns into `null`,
so every read is guarded by the corresponding length condition: the magic
needs 4 bytes, `getUint32(0x14)` needs 0x18 bytes, the GD3 magic needs
`gd3Pos + 4` bytes; the string loop's own guard keeps `getUint16` in
bounds. -/
def parseVGMTitle (buf : List Nat) : Option VGMInfo :=
  if buf.length < 4 then none
  else if buf.take 4 ≠ vgmMagic then none
  else if buf.length < 0x18 then none
  else if gd3OffsetOf buf = 0 then none
  else if buf.length < (0x14 + gd3OffsetOf buf) + 4 then none
  else if (buf.drop (0x14 + gd3OffsetOf buf)).take 4 ≠ gd3Magic then none
  else
    let strs := readStrs buf (0x14 + gd3OffsetOf buf + 12) 11
    some
      { trackNameEn := strs.getD 0 []
        trackNameJp := strs.getD 1 []
        gameNameEn := strs.getD 2 []
        gameNameJp := strs.getD 3 []
        systemNameEn := strs.getD 4 []
        systemNameJp := strs.getD 5 []
        authorNameEn := strs.getD 6 []
        authorNameJp := strs.getD 7 []
        releaseDate := strs.getD 8 []
        vgmCreator := strs.getD 9 []
        notes := strs.getD 10 [] }

/-! ### A constructive family of well-formed VGM buffers

`mkVGM strs` lays out a minimal VGM container: the "Vgm " magic, sixteen
zero header bytes, the GD3 offset 4 stored little-endian at 0x14 (so the tag
block starts at 0x18), the "Gd3 " magic, eight zero version/length bytes,
and the UTF-16LE encodings of the given strings, each terminated by a zero
code unit.  Parsing such a buffer must recover exactly the given strings. -/

/-- Little-endian byte pair of a 16-bit code unit. -/
def u16le (c : Nat) : List Nat := [c % 256, c / 256 % 256]

/-- UTF-16LE encoding of one string followed by its null terminator. -/
def encodeStr (s : List Nat) : List Nat :=
  s.flatMap u16le ++ [0, 0]

/-- A code unit storable in a GD3 string: 16-bit and not the terminator. -/
def validUnit (c : Nat) : Prop := c ≠ 0 ∧ c < 65536

/-- The fixed 36-byte prefix of every `mkVGM` buffer. -/
def vgmHeader : List Nat :=
  vgmMagic ++ List.replicate 16 0 ++ [4, 0, 0, 0] ++ gd3Magic ++
    List.replicate 8 0

/-- A minimal VGM buffer holding the given GD3 strings. -/
def mkVGM (strs : List (List Nat)) : List Nat :=
  vgmHeader ++ strs.flatMap encodeStr

/-- A concrete SPC fixture: the 33-byte "SNES-SPC700 Sound File Data v0.30"
signature, filler 'A' bytes up to offset 0xA9, the letters "abc" in the
3-byte duration field and "xyzzy" in the 5-byte fade field. -/
def spcFixtureBuffer : List Nat :=
  [83, 78, 69, 83, 45, 83, 80, 67, 55, 48, 48, 32, 83, 111, 117, 110, 100,
    32, 70, 105, 108, 101, 32, 68, 97, 116, 97, 32, 118, 48, 46, 51, 48] ++
    List.replicate 136 65 ++ [97, 98, 99] ++ [120, 121, 122, 122, 121]

/-! ## Theorems -/

/-- C8: for every non-empty catalogue of length `L` and current index
`i < L`, `nextTrack()` moves to `(i + 1) % L` and `prevTrack()` moves to
`i - 1`, wrapping to `L - 1` when `i = 0`; both results are valid indices
and `prevTrack` agrees with the modular description `(i + L - 1) % L`; in
particular on a 3-track catalogue `next` at index 2 yields 0 and `prev` at
index 0 yields 2. -/
theorem nextPrev_wrap (i L : Nat) (h : i < L) :
    nextTrackIndex i L = (i + 1) % L ∧
    nextTrackIndex i L < L ∧
    prevTrackIndex i L < L ∧
    prevTrackIndex i L = (i + L - 1) % L ∧
    (i = 0 → prevTrackIndex i L = L - 1) ∧
    (i ≠ 0 → prevTrackIndex i L = i - 1) ∧
    nextTrackIndex 2 3 = 0 ∧ prevTrackIndex 0 3 = 2 := by
  refine ⟨rfl, Nat.mod_lt _ (by omega), ?_, ?_, ?_, ?_, by decide, by decide⟩
  · unfold prevTrackIndex
    split <;> omega
  · unfold prevTrackIndex
    split
    · next hi =>
        subst hi
        rw [Nat.zero_add, Nat.mod_eq_of_lt (by omega)]
    · next hi =>
        have hrw : i + L - 1 = (i - 1) + L := by omega
        rw [hrw, Nat.add_mod_right, Nat.mod_eq_of_lt (by omega)]
  · intro hi
    simp [prevTrackIndex, hi]
  · intro hi
    simp [prevTrackIndex, hi]

/-- Witness for C8: the theorem applied to the concrete 3-track catalogue
at index 2. -/
theorem nextPrev_wrap_witness :
    nextTrackIndex 2 3 = (2 + 1) % 3 ∧
    nextTrackIndex 2 3 < 3 ∧
    prevTrackIndex 2 3 < 3 ∧
    prevTrackIndex 2 3 = (2 + 3 - 1) % 3 ∧
    (2 = 0 → prevTrackIndex 2 3 = 3 - 1) ∧
    (2 ≠ 0 → prevTrackIndex 2 3 = 2 - 1) ∧
    nextTrackIndex 2 3 = 0 ∧ prevTrackIndex 0 3 = 2 :=
  nextPrev_wrap 2 3 (by decide)

/-- C3 counterexample: the frontend SPC parser (`parseSPCID666` in
useSPCPlayer.js) performs no signature validation, so on the empty buffer —
which fails the fixed ASCII signature prefix check — it returns a metadata
record instead of null. -/
theorem spcParser_no_magic_counterexample :
    spcMagicOk [] = false ∧ parseSPCID666 [] ≠ none := by
  exact ⟨by decide, by decide⟩

/-- C3 amended: of the two SPC metadata parsers, the offline pipeline's
(`parseSPCID666` in unnamed/part_000) validates the ASCII signature prefix
before reading any ID666 field and returns null for every buffer failing
the check; the frontend's (`parseSPCID666` in useSPCPlayer.js) performs no
signature check and returns a metadata record for every buffer. -/
theorem spcPipelineParser_rejects_bad_magic (buffer : List Nat)
    (h : spcMagicOk buffer = false) :
    parseSPCID666Pipeline buffer = none ∧ parseSPCID666 buffer ≠ none := by
  refine ⟨?_, by simp [parseSPCID666]⟩
  simp [parseSPCID666Pipeline, h]

/-- Witness for C3's amended theorem at the concrete one-byte buffer. -/
theorem spcPipelineParser_rejects_bad_magic_witness :
    parseSPCID666Pipeline [0] = none ∧ parseSPCID666 [0] ≠ none :=
  spcPipelineParser_rejects_bad_magic [0] (by decide)

/-- C2: `setVolume(ratio)` clamps its argument to [0, 1] (values inside the
range pass through, values outside are clamped), and the user volume
composes multiplicatively with the independent fade-out gain: with user
volume 0.5 and the fade schedule at step 10 of 20 (gain factor 0.5) the
effective output gain is 0.25, not 0.5. -/
theorem setVolume_clamps_and_composes :
    (∀ r : ℚ, 0 ≤ setVolumeClamp r ∧ setVolumeClamp r ≤ 1) ∧
    setVolumeClamp (1 / 2) = 1 / 2 ∧
    setVolumeClamp 2 = 1 ∧
    setVolumeClamp (-1) = 0 ∧
    spcFadeGain 10 = 1 / 2 ∧
    effectiveOutputGain (1 / 2) 10 = 1 / 4 ∧
    effectiveOutputGain (1 / 2) 10 ≠ 1 / 2 := by
  refine ⟨fun r => ⟨le_max_left 0 _, ?_⟩, ?_, ?_, ?_, ?_, ?_, ?_⟩
  · exact max_le (by norm_num) (min_le_left 1 r)
  · norm_num [setVolumeClamp]
  · norm_num [setVolumeClamp]
  · norm_num [setVolumeClamp]
  · norm_num [spcFadeGain, fadeSteps]
  · norm_num [effectiveOutputGain, setVolumeClamp, spcFadeGain, fadeSteps]
  · norm_num [effectiveOutputGain, setVolumeClamp, spcFadeGain, fadeSteps]

/-- C9: loading the SPC engine leaves the first engine's shared global
bindings (`Module`, `allocate`, `ALLOC_STACK`) exactly as they were before
the load, for an arbitrary script effect, provided the first engine had
installed them (the saved `Module` and `allocate` are set, which is what
the conditional restore tests). -/
theorem spcEngineLoad_preserves_globals (eff : Globals → Globals)
    (g : Globals) (hm : g.module.isSome) (ha : g.allocate.isSome) :
    ((loadSPCEngine eff g).1).module = g.module ∧
    ((loadSPCEngine eff g).1).allocate = g.allocate ∧
    ((loadSPCEngine eff g).1).allocStack = g.allocStack := by
  simp [loadSPCEngine, hm, ha]

/-- Witness for C9: a concrete first-engine binding set and a concrete
script effect that overwrites all three globals. -/
theorem spcEngineLoad_preserves_globals_witness :
    ((loadSPCEngine (fun _ => ⟨some 5, some 6, some 7⟩)
        ⟨some 1, some 2, some 3⟩).1).module = some 1 ∧
    ((loadSPCEngine (fun _ => ⟨some 5, some 6, some 7⟩)
        ⟨some 1, some 2, some 3⟩).1).allocate = some 2 ∧
    ((loadSPCEngine (fun _ => ⟨some 5, some 6, some 7⟩)
        ⟨some 1, some 2, some 3⟩).1).allocStack = some 3 :=
  spcEngineLoad_preserves_globals (fun _ => ⟨some 5, some 6, some 7⟩)
    ⟨some 1, some 2, some 3⟩ (by decide) (by decide)

/-- C1 is violated by the code: in the trace `play(); pause(); play()` the
`pause()` call cancels neither schedule and the replacement `play()` skips
`stop()` because `isPlayingRef.current` is false, so both session-1 timers
stay scheduled while session 2 is playing.  The stale auto-advance timer
passes the `isPlayingRef.current` guard and would advance the track against
the new session's state, and even a subsequent `stop()` cannot cancel it
because both refs were overwritten by the new session's timer handles. -/
theorem staleTimers_after_pause_play :
    (spcPlay (spcPause (spcPlay initialPlayerState))).session = 2 ∧
    (spcPlay (spcPause (spcPlay initialPlayerState))).isPlaying = true ∧
    (1, 1) ∈ (spcPlay (spcPause (spcPlay initialPlayerState))).live ∧
    endTimerAdvances (spcPlay (spcPause (spcPlay initialPlayerState)))
      (1, 1) = true ∧
    (1, 1) ∈ (spcStop (spcPlay (spcPause (spcPlay initialPlayerState)))).live ∧
    (spcPlay (spcPause (spcPlay initialPlayerState))).endRef ≠ some 1 := by
  decide

/-- The `loadZip` entry loop is the extension-filtered, order-preserving
image of the archive listing. -/
theorem loadZipTracks_eq_filter_map (entries : List MzEntry) :
    loadZipTracks entries =
      (entries.filter (fun e => isSpcPath e.filepath)).map mkSPCTrack := by
  induction entries with
  | nil => rfl
  | cons e es ih =>
      by_cases h : isSpcPath e.filepath <;>
        simp [loadZipTracks, h, ih]

/-- The VGM pipeline loop keeps exactly the non-directory `.vgm`/`.vgz`
entries, in enumeration order, whenever decompression succeeds on all of
them. -/
theorem processZipAudio_eq_filter_map
    (inflate : List Nat → Option (List Nat)) (entries : List ZipEntry)
    (h : ∀ e ∈ entries, isVgmAudioEntry e = true → isVgz e = true →
      inflate e.data ≠ none) :
    (processZipAudio inflate entries).map Prod.fst =
      (entries.filter isVgmAudioEntry).map ZipEntry.filepath := by
  induction entries with
  | nil => rfl
  | cons e es ih =>
      have ihs := ih (fun x hx => h x (List.mem_cons_of_mem e hx))
      by_cases hd : e.dir
      · have hae : isVgmAudioEntry e = false := by
          simp [isVgmAudioEntry, hd]
        simp [processZipAudio, hd, hae, ihs]
      · by_cases hp : isVgmAudioPath e.filepath
        · have hae : isVgmAudioEntry e = true := by
            simp [isVgmAudioEntry, hd, hp]
          by_cases hz : isVgz e
          · obtain ⟨payload, hpay⟩ := Option.ne_none_iff_exists'.mp
              (h e (List.mem_cons_self e es) hae (by simpa using hz))
            simp [processZipAudio, hd, hp, hz, hpay, hae, ihs]
          · simp [processZipAudio, hd, hp, hz, hae, ihs]
        · have hae : isVgmAudioEntry e = false := by
            simp [isVgmAudioEntry, hd, hp]
          simp [processZipAudio, hd, hp, hae, ihs]

/-- C6: loading an archive with `N` audio entries and `M` non-audio entries
(directory entries included) yields exactly `N` tracks in enumeration
order: the frontend `loadZip` catalogue is the order-preserving image of
the `.spc` entries, and the pipeline's VGM loop — whose directory skip and
fail-soft decompression are explicit — yields one track per non-directory
`.vgm`/`.vgz` entry, in order, when every compressed entry inflates. -/
theorem archive_load_count_order (entries : List MzEntry)
    (inflate : List Nat → Option (List Nat)) (pentries : List ZipEntry)
    (h : ∀ e ∈ pentries, isVgmAudioEntry e = true → isVgz e = true →
      inflate e.data ≠ none) :
    (loadZipTracks entries).length =
      (entries.filter (fun e => isSpcPath e.filepath)).length ∧
    (loadZipTracks entries).map SPCTrack.path =
      (entries.filter (fun e => isSpcPath e.filepath)).map MzEntry.filepath ∧
    (processZipAudio inflate pentries).map Prod.fst =
      (pentries.filter isVgmAudioEntry).map ZipEntry.filepath ∧
    (processZipAudio inflate pentries).length =
      (pentries.filter isVgmAudioEntry).length := by
  have hmap := processZipAudio_eq_filter_map inflate pentries h
  refine ⟨?_, ?_, hmap, ?_⟩
  · rw [loadZipTracks_eq_filter_map, List.length_map]
  · rw [loadZipTracks_eq_filter_map, List.map_map]
    rfl
  · have := congrArg List.length hmap
    simpa using this

/-- Witness for C6: a mixed archive (one `.spc` audio entry and one text
entry; one `.vgm` entry, one directory and one image) with the identity
decompressor. -/
theorem archive_load_count_order_witness :
    (loadZipTracks [⟨[97, 46, 115, 112, 99], [1]⟩,
        ⟨[98, 46, 116, 120, 116], [2]⟩]).length =
      ([⟨[97, 46, 115, 112, 99], [1]⟩,
        ⟨[98, 46, 116, 120, 116], [2]⟩].filter
          (fun e : MzEntry => isSpcPath e.filepath)).length ∧
    (loadZipTracks [⟨[97, 46, 115, 112, 99], [1]⟩,
        ⟨[98, 46, 116, 120, 116], [2]⟩]).map SPCTrack.path =
      ([⟨[97, 46, 115, 112, 99], [1]⟩,
        ⟨[98, 46, 116, 120, 116], [2]⟩].filter
          (fun e : MzEntry => isSpcPath e.filepath)).map MzEntry.filepath ∧
    (processZipAudio some [⟨[97, 46, 118, 103, 109], false, [3]⟩,
        ⟨[100, 47], true, []⟩, ⟨[99, 46, 112, 110, 103], false, [4]⟩]).map
        Prod.fst =
      ([⟨[97, 46, 118, 103, 109], false, [3]⟩, ⟨[100, 47], true, []⟩,
        ⟨[99, 46, 112, 110, 103], false, [4]⟩].filter
          isVgmAudioEntry).map ZipEntry.filepath ∧
    (processZipAudio some [⟨[97, 46, 118, 103, 109], false, [3]⟩,
        ⟨[100, 47], true, []⟩,
        ⟨[99, 46, 112, 110, 103], false, [4]⟩]).length =
      ([⟨[97, 46, 118, 103, 109], false, [3]⟩, ⟨[100, 47], true, []⟩,
        ⟨[99, 46, 112, 110, 103], false, [4]⟩].filter
          isVgmAudioEntry).length :=
  archive_load_count_order
    [⟨[97, 46, 115, 112, 99], [1]⟩, ⟨[98, 46, 116, 120, 116], [2]⟩]
    some
    [⟨[97, 46, 118, 103, 109], false, [3]⟩, ⟨[100, 47], true, []⟩,
      ⟨[99, 46, 112, 110, 103], false, [4]⟩]
    (by decide)

/-- The `Option.elim` of the last element of a non-empty list ignores the
default value. -/
theorem elim_getLast?_cons {α β : Type} (b : α) (bs : List α)
    (acc1 acc2 : β) (f : α → β) :
    ((b :: bs).getLast?).elim acc1 f = ((b :: bs).getLast?).elim acc2 f := by
  induction bs generalizing b with
  | nil => rfl
  | cons c cs ih => rw [List.getLast?_cons_cons]; exact ih c

/-- The cover accumulator is determined by the last image entry of the
enumeration (or the initial accumulator when none occurs). -/
theorem coverFold_eq_getLast (es : List ZipEntry) (acc : Option (List Nat)) :
    coverFold acc es =
      ((es.filter isImageEntry).getLast?).elim acc (fun e => some e.data) := by
  induction es generalizing acc with
  | nil => rfl
  | cons e es ih =>
      by_cases h : isImageEntry e
      · have hcond : (!e.dir && isImagePath e.filepath) = true := by
          simpa [isImageEntry] using h
        rw [show coverFold acc (e :: es) =
              coverFold (some e.data) es by simp [coverFold, hcond],
            ih (some e.data), List.filter_cons_of_pos h]
        cases hfe : es.filter isImageEntry with
        | nil => simp
        | cons b bs =>
            rw [List.getLast?_cons_cons]
            exact elim_getLast?_cons b bs _ _ _
      · have hcond : (!e.dir && isImagePath e.filepath) = false := by
          simpa [isImageEntry] using h
        rw [show coverFold acc (e :: es) = coverFold acc es by
              simp [coverFold, hcond],
            ih acc, List.filter_cons_of_neg (by simpa using h)]

/-- C7 counterexample: an archive enumerating two image entries `a.png`
(payload [1]) then `b.png` (payload [2]); the loader's cover candidate is
the second entry's payload, not the first's, so first-match-wins is
false. -/
theorem coverImage_first_match_counterexample :
    coverCandidate [⟨[97, 46, 112, 110, 103], false, [1]⟩,
        ⟨[98, 46, 112, 110, 103], false, [2]⟩] = some [2] ∧
    coverCandidate [⟨[97, 46, 112, 110, 103], false, [1]⟩,
        ⟨[98, 46, 112, 110, 103], false, [2]⟩] ≠ some [1] := by
  decide

/-- C7 amended: for every archive enumeration, the pipeline loader's cover
image candidate is the payload of the last (most recently enumerated)
non-directory image entry — each image entry overwrites the accumulator, so
last-match-wins, not first-match-wins. -/
theorem coverImage_last_match_wins (entries : List ZipEntry) :
    coverCandidate entries =
      ((entries.filter isImageEntry).getLast?).map ZipEntry.data := by
  rw [coverCandidate, coverFold_eq_getLast]
  cases (entries.filter isImageEntry).getLast? <;> rfl

/-- C5: for every SPC buffer with a valid signature whose 3-digit duration
field and 5-digit fade field hold non-numeric text (`parseInt` yields
`NaN`), both parsers still return a record — never an error — with duration
0 and fade 0; the playback fallbacks then substitute 180 seconds and 10000
milliseconds, making the catalogue length 190 = 180 + ⌈10000 / 1000⌉
seconds; and every built track's displayed length is its (defaulted)
duration plus the fade tail rounded up to whole seconds. -/
theorem spcNonNumericFields_default (buffer : List Nat)
    (hmag : spcMagicOk buffer = true)
    (hdur : jsParseInt (spcReadString buffer 0xA9 3) = none)
    (hfad : jsParseInt (spcReadString buffer 0xAC 5) = none) :
    parseSPCID666 buffer = some (spcReadFields buffer) ∧
    parseSPCID666Pipeline buffer = some (spcReadFields buffer) ∧
    (spcReadFields buffer).duration = 0 ∧
    (spcReadFields buffer).fade = 0 ∧
    effectiveDuration (spcReadFields buffer).duration = 180 ∧
    effectiveFade (spcReadFields buffer).fade = 10000 ∧
    trackLengthSeconds (effectiveDuration (spcReadFields buffer).duration)
      (effectiveFade (spcReadFields buffer).fade) = 180 + jsCeilDiv 10000 1000 ∧
    trackLengthSeconds (effectiveDuration (spcReadFields buffer).duration)
      (effectiveFade (spcReadFields buffer).fade) = 190 ∧
    (∀ e : MzEntry, (mkSPCTrack e).length =
      trackLengthSeconds (mkSPCTrack e).duration (mkSPCTrack e).fade) := by
  have hd : (spcReadFields buffer).duration = 0 := by
    simp [spcReadFields, jsParseIntOr0, hdur]
  have hf : (spcReadFields buffer).fade = 0 := by
    simp [spcReadFields, jsParseIntOr0, hfad]
  refine ⟨rfl, by simp [parseSPCID666Pipeline, hmag], hd, hf, ?_, ?_, ?_, ?_,
    fun e => rfl⟩
  · rw [hd]; rfl
  · rw [hf]; rfl
  · rw [hd, hf]; rfl
  · rw [hd, hf]; decide

/-- Witness for C5 at the concrete fixture buffer: valid signature, letters
"abc" in the duration field and "xyzzy" in the fade field. -/
theorem spcNonNumericFields_default_witness :
    parseSPCID666 spcFixtureBuffer = some (spcReadFields spcFixtureBuffer) ∧
    parseSPCID666Pipeline spcFixtureBuffer =
      some (spcReadFields spcFixtureBuffer) ∧
    (spcReadFields spcFixtureBuffer).duration = 0 ∧
    (spcReadFields spcFixtureBuffer).fade = 0 ∧
    effectiveDuration (spcReadFields spcFixtureBuffer).duration = 180 ∧
    effectiveFade (spcReadFields spcFixtureBuffer).fade = 10000 ∧
    trackLengthSeconds
      (effectiveDuration (spcReadFields spcFixtureBuffer).duration)
      (effectiveFade (spcReadFields spcFixtureBuffer).fade) =
        180 + jsCeilDiv 10000 1000 ∧
    trackLengthSeconds
      (effectiveDuration (spcReadFields spcFixtureBuffer).duration)
      (effectiveFade (spcReadFields spcFixtureBuffer).fade) = 190 ∧
    (∀ e : MzEntry, (mkSPCTrack e).length =
      trackLengthSeconds (mkSPCTrack e).duration (mkSPCTrack e).fade) :=
  spcNonNumericFields_default spcFixtureBuffer (by decide) (by decide)
    (by decide)

/-- A guarded analyser-byte sum is bounded by 255 per summand. -/
theorem sumBin_le (data : List Nat) (h : ∀ x ∈ data, x ≤ 255) :
    ∀ count start, sumBin data start count ≤ 255 * count := by
  intro count
  induction count with
  | zero => intro start; simp [sumBin]
  | succ n ih =>
      intro start
      have hterm : (if start < data.length then data.getD start 0 else 0) ≤
          255 := by
        split
        · next hs =>
            refine h _ ?_
            rw [List.getD_eq_getElem _ _ hs]
            exact List.getElem_mem hs
        · omega
      have := ih (start + 1)
      simp only [sumBin]
      calc (if start < data.length then data.getD start 0 else 0) +
            sumBin data (start + 1) n ≤ 255 + 255 * n := by omega
        _ = 255 * (n + 1) := by ring

/-- Rounded averages of byte values stay in the byte range. -/
theorem jsRoundDiv_le (sum binSize : Nat) (hb : 1 ≤ binSize)
    (hs : sum ≤ 255 * binSize) : jsRoundDiv sum binSize ≤ 255 := by
  have hlt : 2 * sum + binSize < 256 * (2 * binSize) := by omega
  have := (Nat.div_lt_iff_lt_mul (by omega : 0 < 2 * binSize)).mpr
    (by omega : 2 * sum + binSize < 256 * (2 * binSize))
  unfold jsRoundDiv
  omega

/-- One M4A smoothing step keeps a bin inside [0, 255] whenever the random
draw lies in [0, 1] and the previous bin was in range. -/
theorem m4aBinStep_range (i : ℕ) (rand b : ℚ) (hr0 : 0 ≤ rand)
    (hr1 : rand ≤ 1) (hb0 : 0 ≤ b) (hb1 : b ≤ 255) :
    0 ≤ m4aBinStep i rand b ∧ m4aBinStep i rand b ≤ 255 := by
  simp only [m4aBinStep]
  split
  · next hlt =>
      constructor
      · refine le_min (by norm_num) ?_
        nlinarith
      · exact min_le_left _ _
  · next hge =>
      constructor
      · exact le_max_left _ _
      · refine max_le (by norm_num) ?_
        push_neg at hge
        nlinarith

set_option maxRecDepth 8000 in
/-- C10 counterexample: the SPC player's snapshot loop runs on every
animation frame regardless of the playing flag, so with the analyser still
holding full-scale magnitudes and the player not playing, the published
snapshot is 16 bins of 255, not all zeros — refuting "whenever the player
is not playing, the snapshot is all zeros". -/
theorem frequencySnapshot_notPlaying_counterexample :
    spcSnapshot false (List.replicate 128 255) = List.replicate 16 255 ∧
    spcSnapshot false (List.replicate 128 255) ≠ List.replicate 16 0 := by
  constructor
  · decide
  · decide

set_option maxRecDepth 8000 in
/-- C10 amended: every published snapshot has exactly 16 bins, each bin in
the byte range 0–255 — the SPC tick averages contiguous analyser ranges of
byte values, and the M4A tick's smoothed bins stay in range for random
draws in [0, 1]; the M4A player resets the snapshot to all zeros whenever
it is not playing, whereas the SPC player's snapshot is the downsampled
analyser data regardless of the playing flag (all zeros only once the
analyser output is zero, e.g. on all-zero analyser data). -/
theorem frequencySnapshot_shape (data : List Nat)
    (h : ∀ x ∈ data, x ≤ 255) (rand bins : Fin 16 → ℚ)
    (hr : ∀ i, 0 ≤ rand i ∧ rand i ≤ 1)
    (hb : ∀ i, 0 ≤ bins i ∧ bins i ≤ 255) :
    (spcFrequencyTick data).length = 16 ∧
    (∀ b ∈ spcFrequencyTick data, b ≤ 255) ∧
    m4aSnapshot false rand bins = (fun _ => 0) ∧
    (∀ i, 0 ≤ m4aSnapshot true rand bins i ∧
      m4aSnapshot true rand bins i ≤ 255) ∧
    spcSnapshot false (List.replicate 128 0) = List.replicate 16 0 := by
  refine ⟨by simp [spcFrequencyTick], ?_, rfl, ?_, by decide⟩
  · intro b hbmem
    simp only [spcFrequencyTick, List.mem_map, List.mem_range] at hbmem
    obtain ⟨i, _, rfl⟩ := hbmem
    exact jsRoundDiv_le _ _ (le_max_left 1 _)
      (sumBin_le data h _ _ |>.trans (by simp [Nat.mul_comm]))
  · intro i
    have hrange := m4aBinStep_range i (rand i) (bins i) (hr i).1 (hr i).2
      (hb i).1 (hb i).2
    have h0 : (0 : ℚ) ≤ m4aBinStep i (rand i) (bins i) + 1 / 2 := by
      linarith [hrange.1]
    constructor
    · simp only [m4aSnapshot, if_pos, jsRoundQ]
      have : (0 : ℤ) = ⌊(1 / 2 : ℚ)⌋ := by norm_num
      rw [this]
      exact Int.floor_mono (by linarith [hrange.1])
    · simp only [m4aSnapshot, if_pos, jsRoundQ]
      have h255 : ⌊(255 : ℚ) + 1 / 2⌋ = 255 := by norm_num
      calc ⌊m4aBinStep i (rand i) (bins i) + 1 / 2⌋ ≤ ⌊(255 : ℚ) + 1 / 2⌋ :=
            Int.floor_mono (by linarith [hrange.2])
        _ = 255 := h255

/-- Witness for C10's amended theorem at concrete analyser data, random
draws and bins. -/
theorem frequencySnapshot_shape_witness :
    (spcFrequencyTick [10, 20]).length = 16 ∧
    (∀ b ∈ spcFrequencyTick [10, 20], b ≤ 255) ∧
    m4aSnapshot false (fun _ => 1 / 2) (fun _ => 100) = (fun _ => 0) ∧
    (∀ i, 0 ≤ m4aSnapshot true (fun _ => 1 / 2) (fun _ => 100) i ∧
      m4aSnapshot true (fun _ => 1 / 2) (fun _ => 100) i ≤ 255) ∧
    spcSnapshot false (List.replicate 128 0) = List.replicate 16 0 :=
  frequencySnapshot_shape [10, 20] (by decide) (fun _ => 1 / 2)
    (fun _ => 100) (fun _ => by norm_num) (fun _ => by norm_num)

/-- Encoded GD3 strings occupy two bytes per code unit plus the two-byte
terminator. -/
theorem encodeStr_length (s : List Nat) :
    (encodeStr s).length = 2 * s.length + 2 := by
  induction s with
  | nil => rfl
  | cons c cs ih =>
      simp only [encodeStr, List.flatMap_cons, List.append_assoc,
        List.length_append] at ih ⊢
      simp only [u16le, List.length_cons, List.length_nil] at ih ⊢
      omega

/-- Reading one null-terminated UTF-16LE string over its encoding recovers
the string and leaves the position just past the terminator, for any prefix
`a`, any suffix `rest`, and any fuel exceeding the string length. -/
theorem readStrFuel_encode (s : List Nat) :
    ∀ (a rest : List Nat) (fuel : Nat),
      (∀ c ∈ s, c ≠ 0 ∧ c < 65536) →
      s.length + 1 ≤ fuel →
      readStrFuel fuel (a ++ (encodeStr s ++ rest)) a.length =
        (s, a.length + 2 * s.length + 2) := by
  induction s with
  | nil =>
      intro a rest fuel _ hfuel
      match fuel, hfuel with
      | fuel + 1, _ =>
        have henc : encodeStr [] = [0, 0] := rfl
        rw [henc]
        have hlen : a.length + 1 < (a ++ ([0, 0] ++ rest)).length := by
          simp only [List.length_append, List.length_cons, List.length_nil]
          omega
        have h0 : (a ++ ([0, 0] ++ rest)).getD a.length 0 = 0 := by
          rw [List.getD_append_right _ _ _ _ (le_refl _), Nat.sub_self]
          rfl
        have h1 : (a ++ ([0, 0] ++ rest)).getD (a.length + 1) 0 = 0 := by
          rw [List.getD_append_right _ _ _ _ (by omega),
            Nat.add_sub_cancel_left]
          rfl
        simp only [readStrFuel, if_pos hlen, h0, h1]
        norm_num
  | cons c cs ih =>
      intro a rest fuel hval hfuel
      match fuel, hfuel with
      | fuel + 1, hfuel =>
        have hc := hval c (List.mem_cons_self c cs)
        have henc : encodeStr (c :: cs) ++ rest =
            u16le c ++ (encodeStr cs ++ rest) := by
          simp [encodeStr, List.flatMap_cons, List.append_assoc]
        rw [henc]
        have hassoc : a ++ (u16le c ++ (encodeStr cs ++ rest)) =
            (a ++ u16le c) ++ (encodeStr cs ++ rest) := by
          rw [List.append_assoc]
        have hlen : a.length + 1 <
            (a ++ (u16le c ++ (encodeStr cs ++ rest))).length := by
          simp only [List.length_append, u16le, List.length_cons,
            List.length_nil]
          omega
        have hgd0 : (a ++ (u16le c ++ (encodeStr cs ++ rest))).getD
            a.length 0 = c % 256 := by
          rw [List.getD_append_right _ _ _ _ (le_refl _), Nat.sub_self]
          rfl
        have hgd1 : (a ++ (u16le c ++ (encodeStr cs ++ rest))).getD
            (a.length + 1) 0 = c / 256 % 256 := by
          rw [List.getD_append_right _ _ _ _ (by omega),
            Nat.add_sub_cancel_left]
          rfl
        have hcval : c % 256 + 256 * (c / 256 % 256) = c := by
          have hdiv : c / 256 < 256 := by omega
          rw [Nat.mod_eq_of_lt hdiv]
          omega
        have hlen2 : a.length + 2 = (a ++ u16le c).length := by
          simp [u16le]
        have hrec := ih (a ++ u16le c) rest fuel
          (fun x hx => hval x (List.mem_cons_of_mem c hx))
          (by simp only [List.length_cons] at hfuel ⊢; omega)
        simp only [readStrFuel, if_pos hlen, hgd0, hgd1, hcval,
          if_neg hc.1]
        rw [hassoc, hlen2, hrec]
        simp only [Prod.mk.injEq, List.length_cons, List.length_append,
          u16le, List.length_nil, true_and]
        ring

/-- Reading up to `n ≥ k` strings over the encoding of `k` strings recovers
exactly those strings, for any prefix `a`. -/
theorem readStrs_encode (strs : List (List Nat)) :
    ∀ (a : List Nat) (n : Nat),
      (∀ s ∈ strs, ∀ c ∈ s, c ≠ 0 ∧ c < 65536) →
      strs.length ≤ n →
      readStrs (a ++ strs.flatMap encodeStr) a.length n = strs := by
  induction strs with
  | nil =>
      intro a n _ _
      cases n with
      | zero => rfl
      | succ m =>
          rw [List.flatMap_nil, List.append_nil]
          simp only [readStrs]
          rw [if_neg (by omega)]
  | cons s strs ih =>
      intro a n hval hn
      cases n with
      | zero => simp at hn
      | succ m =>
          have hflat : (s :: strs).flatMap encodeStr =
              encodeStr s ++ strs.flatMap encodeStr := by
            rw [List.flatMap_cons]
          rw [hflat]
          have hguard : a.length + 1 <
              (a ++ (encodeStr s ++ strs.flatMap encodeStr)).length := by
            simp only [List.length_append, encodeStr_length]
            omega
          have hfuel : s.length + 1 ≤
              (a ++ (encodeStr s ++ strs.flatMap encodeStr)).length := by
            simp only [List.length_append, encodeStr_length]
            omega
          have hone := readStrFuel_encode s a (strs.flatMap encodeStr)
            (a ++ (encodeStr s ++ strs.flatMap encodeStr)).length
            (fun c hc => hval s (List.mem_cons_self s strs) c hc) hfuel
          have hrs : readStr (a ++ (encodeStr s ++ strs.flatMap encodeStr))
              a.length = (s, a.length + 2 * s.length + 2) := hone
          have hpos : a.length + 2 * s.length + 2 =
              (a ++ encodeStr s).length := by
            simp only [List.length_append, encodeStr_length]
            omega
          have hrest := ih (a ++ encodeStr s) m
            (fun x hx => hval x (List.mem_cons_of_mem s hx))
            (by simp only [List.length_cons] at hn; omega)
          rw [List.append_assoc] at hrest
          simp only [readStrs, if_pos hguard, hrs, hpos, hrest]

/-- C4: for every well-formed VGM buffer carrying a valid "Vgm " magic and
a present, valid GD3 block encoding up to 11 null-terminated UTF-16LE
strings, `parseVGMTitle` returns exactly those strings assigned to the 11
documented fields in order (track name EN/JP, game name EN/JP, system
EN/JP, author EN/JP, release date, tool, notes), with missing strings
yielding empty fields; and for every buffer with valid magic whose GD3
offset field is 0 it returns null without throwing. -/
theorem parseVGMTitle_roundtrip (strs : List (List Nat))
    (hlen : strs.length ≤ 11)
    (hval : ∀ s ∈ strs, ∀ c ∈ s, c ≠ 0 ∧ c < 65536) :
    parseVGMTitle (mkVGM strs) =
      some
        { trackNameEn := strs.getD 0 []
          trackNameJp := strs.getD 1 []
          gameNameEn := strs.getD 2 []
          gameNameJp := strs.getD 3 []
          systemNameEn := strs.getD 4 []
          systemNameJp := strs.getD 5 []
          authorNameEn := strs.getD 6 []
          authorNameJp := strs.getD 7 []
          releaseDate := strs.getD 8 []
          vgmCreator := strs.getD 9 []
          notes := strs.getD 10 [] } ∧
    (∀ buf : List Nat, buf.take 4 = vgmMagic → 0x18 ≤ buf.length →
      gd3OffsetOf buf = 0 → parseVGMTitle buf = none) := by
  constructor
  · have hbuf : mkVGM strs = vgmHeader ++ strs.flatMap encodeStr := rfl
    have hHlen : vgmHeader.length = 36 := by decide
    have hlenbuf : (mkVGM strs).length =
        36 + (strs.flatMap encodeStr).length := by
      rw [hbuf, List.length_append, hHlen]
    have htake4 : (mkVGM strs).take 4 = vgmMagic := by
      rw [hbuf, List.take_append_of_le_length (by rw [hHlen]; omega)]
      decide
    have hgetD : ∀ n, n < 36 →
        (mkVGM strs).getD n 0 = vgmHeader.getD n 0 := by
      intro n hn
      rw [hbuf]
      exact List.getD_append _ _ _ _ (by rw [hHlen]; omega)
    have hoff : gd3OffsetOf (mkVGM strs) = 4 := by
      unfold gd3OffsetOf
      rw [hgetD 0x14 (by omega), hgetD 0x15 (by omega),
        hgetD 0x16 (by omega), hgetD 0x17 (by omega)]
      decide
    have hdrop : ((mkVGM strs).drop 24).take 4 = gd3Magic := by
      rw [hbuf, List.drop_append_of_le_length (by rw [hHlen]; omega),
        List.take_append_of_le_length (by decide)]
      decide
    have hstrs : readStrs (mkVGM strs) 36 11 = strs := by
      have h := readStrs_encode strs vgmHeader 11 hval hlen
      rw [hHlen] at h
      exact h
    unfold parseVGMTitle
    rw [if_neg (by omega), if_neg (by simp [htake4]), if_neg (by omega),
      hoff, if_neg (by norm_num), if_neg (by omega)]
    rw [if_neg (by norm_num [hdrop])]
    have h36 : 0x14 + 4 + 12 = 36 := by norm_num
    rw [h36, hstrs]
  · intro buf hmagic hblen hzero
    have h4 : 4 ≤ buf.length := by
      have := congrArg List.length hmagic
      simp only [List.length_take, vgmMagic] at this
      simp at this
      omega
    unfold parseVGMTitle
    rw [if_neg (by omega), if_neg (by simp [hmagic]), if_neg (by omega),
      hzero, if_pos rfl]

/-- Witness for C4: eleven concrete one-character strings round-trip
through `mkVGM` and `parseVGMTitle` in documented order, and the concrete
zero-GD3-offset buffer parses to null. -/
theorem parseVGMTitle_roundtrip_witness :
    parseVGMTitle (mkVGM [[72], [73], [74], [75], [76], [77], [78], [79],
        [80], [81], [82]]) =
      some
        { trackNameEn := [72]
          trackNameJp := [73]
          gameNameEn := [74]
          gameNameJp := [75]
          systemNameEn := [76]
          systemNameJp := [77]
          authorNameEn := [78]
          authorNameJp := [79]
          releaseDate := [80]
          vgmCreator := [81]
          notes := [82] } ∧
    parseVGMTitle (vgmMagic ++ List.replicate 20 0) = none := by
  have h := parseVGMTitle_roundtrip
    [[72], [73], [74], [75], [76], [77], [78], [79], [80], [81], [82]]
    (by decide) (by decide)
  exact ⟨h.1, h.2 (vgmMagic ++ List.replicate 20 0) (by decide) (by decide)
    (by decide)⟩

end Bitbox
